import Mathlib

/-!
Shallow embedding of the acquisition pipeline of `src/mic_recorder.py`
(class `ContactMicRecorder`, `writer_worker`, `parse_arguments`), with
Python floats modelled as exact rationals (`ℚ`), Python ints as `ℤ`/`ℕ`,
and fallible Python code (raised exceptions) as `Except`.
-/

/-- Python `int(x)` applied to a float: truncation toward zero. -/
def pytrunc (q : ℚ) : ℤ := if 0 ≤ q then ⌊q⌋ else ⌈q⌉

/-- The estimator state owned by `ContactMicRecorder`: `variance_samples`
(the window capacity), the Welford accumulators `n`, `mean`, `M2`
(lines 54–57) and the deque `voltage_buffer` with `maxlen = variance_samples`
(line 52), oldest value first. -/
structure EstState where
  capacity : ℕ
  n : ℕ
  mean : ℚ
  M2 : ℚ
  ring : List ℚ
  deriving DecidableEq, Repr

/-- The estimator fields as initialized by `ContactMicRecorder.__init__`
(lines 52–57): empty buffer, `mean = 0.0`, `M2 = 0.0`, `n = 0`. -/
def initEstimator (capacity : ℕ) : EstState :=
  { capacity := capacity, n := 0, mean := 0, M2 := 0, ring := [] }

/-- `collections.deque(maxlen := m).append x`: append on the right and drop
from the left whatever exceeds `m`. -/
def dequeAppend (m : ℕ) (l : List ℚ) (x : ℚ) : List ℚ :=
  (l ++ [x]).drop ((l ++ [x]).length - m)

/-- The inline variance update of `ContactMicRecorder.record`
(lines 143–159), applied to one sample `x`.  `x = none` models a failed
ADC read (`read_differential` returned `(None, None)`); Python then raises
`TypeError` at the first subtraction involving `x`, which in the filling
branch happens after `self.n += 1` has already executed, and in the full
branch after `popleft` has already run (`popleft` on an empty deque raises
`IndexError` first).  The error value carries the message and the value of
`self.n` at the moment of the raise. -/
def ingest (s : EstState) (x : Option ℚ) : Except (String × ℕ) EstState :=
  if s.n < s.capacity then
    match x with
    | none => .error ("TypeError: unsupported operand types for -: NoneType and float", s.n + 1)
    | some v =>
      let n' := s.n + 1
      let delta := v - s.mean
      let mean' := s.mean + delta / (n' : ℚ)
      let delta2 := v - mean'
      .ok { s with n := n', mean := mean', M2 := s.M2 + delta * delta2,
                   ring := dequeAppend s.capacity s.ring v }
  else
    match s.ring with
    | [] => .error ("IndexError: pop from an empty deque", s.n)
    | old :: rest =>
      match x with
      | none => .error ("TypeError: unsupported operand types for -: NoneType and float", s.n)
      | some v =>
        let ring' := dequeAppend s.capacity rest v
        let old_mean := s.mean
        let delta_old := old - old_mean
        let mean' := (s.mean * (s.n : ℚ) - old + v) / (s.n : ℚ)
        let delta_new := v - mean'
        let delta_old2 := old - mean'
        .ok { s with mean := mean',
                     M2 := s.M2 + delta_new * (v - mean') - delta_old * delta_old2,
                     ring := ring' }

/-- `ContactMicRecorder.calculate_variance` (lines 74–76):
`self.M2 / self.n if self.n > 1 else 0.0`. -/
def calculate_variance (s : EstState) : ℚ :=
  if 1 < s.n then s.M2 / (s.n : ℚ) else 0

/-- Ingest a list of successfully read voltages in order, stopping at the
first raised exception. -/
def ingestMany : EstState → List ℚ → Except (String × ℕ) EstState
  | s, [] => .ok s
  | s, x :: xs =>
    match ingest s (some x) with
    | .ok s' => ingestMany s' xs
    | .error e => .error e

/-- Modelled from the spec: the arithmetic mean of a list of values,
for the independent brute-force recomputation demanded by §8. -/
def list_mean (l : List ℚ) : ℚ := l.sum / (l.length : ℚ)

/-- Modelled from the spec: brute-force population variance of a list,
the independent from-scratch recomputation of §8 against which the
incremental estimator must be validated. -/
def population_variance (l : List ℚ) : ℚ :=
  ((l.map (fun v => (v - list_mean l) ^ 2)).sum) / (l.length : ℚ)

/-- `read_differential` (lines 62–72): on a successful ADC read of raw code
`r`, return the voltage `(r / 1023) * 3.3` together with `r`; on an ADC
exception return `(None, None)`, modelled as `none`. -/
def read_differential (adc : Option ℤ) : Option (ℚ × ℤ) :=
  match adc with
  | some raw => some (((raw : ℚ) / 1023) * (33 / 10), raw)
  | none => none

/-- An item on the writer queue: a `(timestamp, voltage, raw, variance)`
sample row, or the `stop_signal` sentinel (line 91). -/
inductive QItem where
  | sample (r : ℚ × ℚ × ℤ × ℚ)
  | stop
  deriving DecidableEq, Repr

/-- One iteration of the hot sampling loop after the busy-wait
(lines 140–164): read the ADC, run the variance update on `x = voltage`,
then enqueue `(timestamp, voltage, raw, var)`.  When the read failed,
Python reaches the update with `x = None` and raises inside it, before
any `queue.put`; the `.ok` arm of the `none` branch is unreachable. -/
def loop_body (adc : Option ℤ) (timestamp : ℚ) (s : EstState) (queue : List QItem) :
    Except (String × ℕ) (EstState × List QItem) :=
  match read_differential adc with
  | none =>
    match ingest s none with
    | .error e => .error e
    | .ok s' => .ok (s', queue)
  | some (voltage, raw) =>
    match ingest s (some voltage) with
    | .error e => .error e
    | .ok s' => .ok (s', queue ++ [QItem.sample (timestamp, voltage, raw, calculate_variance s')])

/-- Modelled from the spec: §6 configuration constraints — frequency an
integer > 0, duration > 0, variance_window > 0, rotation_interval ≥ 0. -/
def spec_config_valid (frequency : ℤ) (duration variance_window rotate_minutes : ℚ) : Prop :=
  0 < frequency ∧ 0 < duration ∧ 0 < variance_window ∧ 0 ≤ rotate_minutes

/-- `parse_arguments` (lines 188–236) plus `ContactMicRecorder.__init__`
(lines 29–57): argparse only converts the option strings to `int`/`float`
and imposes no range constraint, and `__init__` performs no validation
either.  The only failures on the startup path are incidental:
`1.0 / frequency` (line 38) raises `ZeroDivisionError` when
`frequency = 0`, and `deque(maxlen=variance_samples)` (line 52) raises
`ValueError` when `int(variance_window * frequency)` is negative.  The
MCP3008 hardware is initialized (line 44) before the deque is created, and
neither `duration` nor the rotation interval is ever examined before
recording begins.  Returns `(sample_interval, estimator state)`. -/
def recorder_init (frequency : ℤ) (variance_window : ℚ) : Except String (ℚ × EstState) :=
  if frequency = 0 then .error "ZeroDivisionError: float division by zero"
  else
    let sample_interval : ℚ := 1 / (frequency : ℚ)
    let variance_samples : ℤ := pytrunc (variance_window * (frequency : ℚ))
    if variance_samples < 0 then .error "ValueError: maxlen must be non-negative"
    else .ok (sample_interval, initEstimator variance_samples.toNat)

/-- The state owned by `writer_worker` (lines 93–123): how many files have
been opened so far, the data rows written so far in order (across all
files; the header row is not a data row), the rotation deadline
`next_rotate_time`, and whether a file is currently open. -/
structure WriterState where
  file_count : ℕ
  rows : List (ℚ × ℚ × ℤ × ℚ)
  next_rotate_time : ℚ
  file_open : Bool
  deriving Repr

/-- `open_new_file` (lines 99–108): close any current file, open a fresh
one (writing its header row) and reset the rotation deadline to
`now + rotate_minutes * 60`. -/
def open_new_file (rotate_minutes now : ℚ) (s : WriterState) : WriterState :=
  { file_count := s.file_count + 1, rows := s.rows,
    next_rotate_time := now + rotate_minutes * 60, file_open := true }

/-- The consumer loop of `writer_worker` (lines 112–123): block on
`queue.get()`; on the stop signal break and close the file; on a sample,
rotate first when `perf_counter() >= next_rotate_time and
rotate_minutes > 0`, then write the row.  `clock i` is the value
`time.perf_counter()` returns at the `i`-th call; an empty queue with no
stop signal means the blocking `get` never returns (`none`). -/
def writer_loop (rotate_minutes : ℚ) (clock : ℕ → ℚ) :
    List QItem → ℕ → WriterState → Option WriterState
  | [], _, _ => none
  | QItem.stop :: _, _, s => some { s with file_open := false }
  | QItem.sample r :: rest, i, s =>
    let s1 := if s.next_rotate_time ≤ clock i ∧ 0 < rotate_minutes
              then open_new_file rotate_minutes (clock i) s
              else s
    writer_loop rotate_minutes clock rest (i + 1) { s1 with rows := s1.rows ++ [r] }

/-- `writer_worker` (lines 93–123): set the initial rotation deadline
(line 97), open the first file (line 110), then run the consumer loop over
the queue contents. -/
def writer_worker (rotate_minutes : ℚ) (clock : ℕ → ℚ) (items : List QItem) :
    Option WriterState :=
  writer_loop rotate_minutes clock items 1
    (open_new_file rotate_minutes (clock 0)
      ⟨0, [], clock 0 + rotate_minutes * 60, false⟩)

/-- Helper: draining `samples` followed by the stop signal always
terminates, writes exactly the sample rows in order after the rows already
written, closes the file, and with rotation disabled never opens another
file. -/
theorem writer_loop_drain (rotate_minutes : ℚ) (clock : ℕ → ℚ) :
    ∀ (samples : List (ℚ × ℚ × ℤ × ℚ)) (i : ℕ) (s : WriterState),
      ∃ s', writer_loop rotate_minutes clock
              (samples.map QItem.sample ++ [QItem.stop]) i s = some s' ∧
        s'.rows = s.rows ++ samples ∧
        s'.file_open = false ∧
        (rotate_minutes = 0 → s'.file_count = s.file_count) := by
  intro samples
  induction samples with
  | nil =>
    intro i s
    exact ⟨{ s with file_open := false }, rfl, by simp, rfl, fun _ => rfl⟩
  | cons r rest ih =>
    intro i s
    simp only [List.map_cons, List.cons_append, writer_loop]
    by_cases hrot : s.next_rotate_time ≤ clock i ∧ 0 < rotate_minutes
    · rw [if_pos hrot]
      obtain ⟨s', h1, h2, h3, _⟩ :=
        ih (i + 1) { open_new_file rotate_minutes (clock i) s with
                     rows := (open_new_file rotate_minutes (clock i) s).rows ++ [r] }
      refine ⟨s', h1, ?_, h3, ?_⟩
      · rw [h2]
        simp [open_new_file]
      · intro h0
        rw [h0] at hrot
        exact absurd hrot.2 (by norm_num)
    · rw [if_neg hrot]
      obtain ⟨s', h1, h2, h3, h4⟩ := ih (i + 1) { s with rows := s.rows ++ [r] }
      refine ⟨s', h1, ?_, h3, ?_⟩
      · rw [h2]
        simp
      · intro h0
        simpa using h4 h0

/-- C5: enqueue `K` samples followed by the shutdown signal with no further
producer activity; the Writer persists exactly those `K` data rows, in
order and none dropped, then closes the current file and exits. -/
theorem writer_drains_all_rows (rotate_minutes : ℚ) (clock : ℕ → ℚ)
    (samples : List (ℚ × ℚ × ℤ × ℚ)) :
    ∃ s', writer_worker rotate_minutes clock
            (samples.map QItem.sample ++ [QItem.stop]) = some s' ∧
      s'.rows = samples ∧ s'.rows.length = samples.length ∧ s'.file_open = false := by
  obtain ⟨s', h1, h2, h3, _⟩ := writer_loop_drain rotate_minutes clock samples 1
    (open_new_file rotate_minutes (clock 0) ⟨0, [], clock 0 + rotate_minutes * 60, false⟩)
  refine ⟨s', h1, ?_, ?_, h3⟩
  · simpa [open_new_file] using h2
  · rw [show s'.rows = samples by simpa [open_new_file] using h2]

/-- C7: with `rotation_interval = 0` the Writer never rotates — exactly one
file is opened for the entire run, whatever the clock does and however many
samples are written. -/
theorem rotation_disabled_single_file (clock : ℕ → ℚ)
    (samples : List (ℚ × ℚ × ℤ × ℚ)) :
    ∃ s', writer_worker 0 clock (samples.map QItem.sample ++ [QItem.stop]) = some s' ∧
      s'.file_count = 1 := by
  obtain ⟨s', h1, _, _, h4⟩ := writer_loop_drain 0 clock samples 1
    (open_new_file 0 (clock 0) ⟨0, [], clock 0 + 0 * 60, false⟩)
  exact ⟨s', h1, by simpa [open_new_file] using h4 rfl⟩

/-- `total_samples = int(duration * self.frequency)` (line 128). -/
def total_samples (frequency : ℤ) (duration : ℚ) : ℤ :=
  pytrunc (duration * (frequency : ℚ))

/-- The sampling loop of `record` (lines 128–173) under an ideal
non-blocking Signal Source: every read succeeds instantly, so the
busy-wait releases tick `k` exactly at `start_time + k * sample_interval`
and the timestamp of tick `k` is `k * (1 / frequency)` (line 141 with
`next_time += self.sample_interval`, line 170).  Each tick increments
`sample_count` (line 164) and the loop breaks when
`timestamp >= duration or sample_count >= total_samples` (line 172).
`fuel` bounds the recursion (the source loop has no bound); the result is
the final `(sample_count, timestamp)` pair, `none` meaning the fuel ran
out before the loop terminated. -/
def sampling_loop (frequency : ℤ) (duration : ℚ) :
    ℕ → ℕ → ℕ → Option (ℕ × ℚ)
  | 0, _, _ => none
  | fuel + 1, sample_count, k =>
    let timestamp : ℚ := (k : ℚ) * (1 / (frequency : ℚ))
    let sample_count' := sample_count + 1
    if duration ≤ timestamp ∨ total_samples frequency duration ≤ (sample_count' : ℤ) then
      some (sample_count', timestamp)
    else
      sampling_loop frequency duration fuel sample_count' (k + 1)

/-- Helper: with `total_samples` ticks of fuel, the ideal loop started at
tick `k` with `sample_count = k` finishes with exactly `total_samples`
samples; the count bound always fires no later than the duration bound. -/
theorem sampling_loop_runs_to_total (frequency : ℤ) (duration : ℚ)
    (hf : 0 < frequency)
    (hT : (total_samples frequency duration : ℚ) ≤ duration * (frequency : ℚ)) :
    ∀ (m k : ℕ), 0 < m → (k : ℤ) + m = total_samples frequency duration →
      sampling_loop frequency duration m k k =
        some ((total_samples frequency duration).toNat,
          (((total_samples frequency duration).toNat - 1 : ℕ) : ℚ) * (1 / (frequency : ℚ))) := by
  intro m
  induction m with
  | zero => intro k h0; exact absurd h0 (by norm_num)
  | succ m ih =>
    intro k _ hk
    have hk' : (k : ℤ) + (m + 1) = total_samples frequency duration := by
      push_cast at hk; omega
    simp only [sampling_loop]
    rcases Nat.eq_zero_or_pos m with hm | hm
    · subst hm
      rw [if_pos (Or.inr (by push_cast; omega))]
      have h1 : (total_samples frequency duration).toNat = k + 1 := by omega
      rw [h1]
      simp
    · have hkT : (k : ℤ) + 2 ≤ total_samples frequency duration := by omega
      have hts : ¬ (duration ≤ (k : ℚ) * (1 / (frequency : ℚ))) := by
        have hfq : (0 : ℚ) < (frequency : ℚ) := by exact_mod_cast hf
        have hklt : (k : ℚ) < duration * (frequency : ℚ) := by
          have h2 : ((k : ℤ) : ℚ) + 2 ≤ ((total_samples frequency duration : ℤ) : ℚ) := by
            exact_mod_cast hkT
          push_cast at h2
          linarith
        rw [mul_one_div, not_le, div_lt_iff₀ hfq]
        exact hklt
      have hcnt : ¬ (total_samples frequency duration ≤ ((k + 1 : ℕ) : ℤ)) := by
        push_cast
        omega
      rw [if_neg (not_or.mpr ⟨hts, hcnt⟩)]
      exact ih (k + 1) hm (by push_cast; omega)

/-- C8: the sampling loop terminates when the elapsed timestamp reaches
`duration` or when `sample_count` reaches
`total_samples = int(duration * frequency)` (truncation = rounding down for
positive values), whichever fires first; under an ideal non-blocking
Signal Source the count bound always fires no later than the duration
bound, so the loop takes exactly `total_samples` samples — in particular
`2000` samples for `frequency = 1000`, `duration = 2.0`, which is within
`2000 ± 1`. -/
theorem sampler_total_count (frequency : ℤ) (duration : ℚ)
    (hf : 0 < frequency) (hd : 0 < duration)
    (hT : 1 ≤ total_samples frequency duration) :
    sampling_loop frequency duration (total_samples frequency duration).toNat 0 0 =
      some ((total_samples frequency duration).toNat,
        (((total_samples frequency duration).toNat - 1 : ℕ) : ℚ) * (1 / (frequency : ℚ))) ∧
    sampling_loop 1000 2 2000 0 0 = some (2000, 1999 * (1 / 1000)) ∧
    2000 - 1 ≤ 2000 ∧ 2000 ≤ 2000 + 1 := by
  have key : ∀ (f : ℤ) (d : ℚ), 0 < f → 0 < d → 1 ≤ total_samples f d →
      sampling_loop f d (total_samples f d).toNat 0 0 =
        some ((total_samples f d).toNat,
          (((total_samples f d).toNat - 1 : ℕ) : ℚ) * (1 / (f : ℚ))) := by
    intro f d hf1 hd1 hT1
    have hq : 0 ≤ d * (f : ℚ) :=
      mul_nonneg (le_of_lt hd1) (by exact_mod_cast le_of_lt hf1)
    have hle : ((total_samples f d : ℤ) : ℚ) ≤ d * (f : ℚ) := by
      rw [total_samples, pytrunc, if_pos hq]
      exact Int.floor_le _
    exact sampling_loop_runs_to_total f d hf1 hle (total_samples f d).toNat 0
      (by omega) (by omega)
  refine ⟨key frequency duration hf hd hT, ?_, by omega, by omega⟩
  have h2000 : total_samples 1000 2 = 2000 := by
    norm_num [total_samples, pytrunc]
  have hc := key 1000 2 (by norm_num) (by norm_num) (by rw [h2000]; norm_num)
  rw [h2000] at hc
  have ht : (2000 : ℤ).toNat = 2000 := by decide
  rw [ht] at hc
  rw [hc]
  norm_num

theorem sampler_total_count_witness :
    (0 : ℤ) < 1000 ∧ (0 : ℚ) < 2 ∧ 1 ≤ total_samples 1000 2 ∧
    sampling_loop 1000 2 2000 0 0 = some (2000, 1999 * (1 / 1000)) :=
  ⟨by norm_num, by norm_num, by norm_num [total_samples, pytrunc],
   (sampler_total_count 1000 2 (by norm_num) (by norm_num)
     (by norm_num [total_samples, pytrunc])).2.1⟩

/-- The final report of `record` (lines 181–186), run after the writer
thread has been joined: line 184 prints `sample_count` (always defined),
then line 185 formats `timestamp` — a local variable assigned only inside
the loop body (line 141) — so if the interrupt arrived before the first
sample was ever taken, the reference raises `UnboundLocalError`. -/
def final_report (sample_count : ℕ) (timestamp : Option ℚ) : Except String (ℕ × ℚ) :=
  match timestamp with
  | some t => .ok (sample_count, t)
  | none => .error "UnboundLocalError: local variable timestamp referenced before assignment"

/-- `record` when `KeyboardInterrupt` arrives during the initial busy-wait,
before the first sample (interrupt in lines 135–138, handler at line 175):
the loop stops with `sample_count = 0`, nothing enqueued, and `timestamp`
never assigned; the stop signal is enqueued (line 178), the writer drains
and is joined (line 179), and only then do the final prints run.  `none`
would mean the writer never terminated (the join hangs). -/
def record_interrupted_before_first_sample (rotate_minutes : ℚ) (clock : ℕ → ℚ) :
    Option (Except String (ℕ × ℚ)) :=
  match writer_worker rotate_minutes clock [QItem.stop] with
  | some _ => some (final_report 0 none)
  | none => none

/-- C9 evaluation: when the interrupt arrives before the first sample, the
shutdown sequence completes (stop signal sent, writer drains, join
returns), but the run then raises `UnboundLocalError` while trying to
report the elapsed duration, instead of reporting final counts. -/
theorem interrupt_before_first_sample_crashes_report
    (rotate_minutes : ℚ) (clock : ℕ → ℚ) :
    record_interrupted_before_first_sample rotate_minutes clock =
      some (.error
        "UnboundLocalError: local variable timestamp referenced before assignment") := rfl

/-- C1 evaluation: with window capacity 2 and inputs `[0, 2, 4]`, the code
reports rolling variance `0`, while the population variance of the literal
last 2 values `[2, 4]` is `1` — far outside the `1e-9` relative tolerance.
The full-window `M2` update of line 159 is not equivalent to the cross-term
correction formula. -/
theorem full_window_variance_wrong :
    ingestMany (initEstimator 2) [0, 2, 4] = .ok ⟨2, 2, 3, 0, [2, 4]⟩ ∧
    calculate_variance ⟨2, 2, 3, 0, [2, 4]⟩ = 0 ∧
    population_variance [2, 4] = 1 ∧
    ¬ |calculate_variance ⟨2, 2, 3, 0, [2, 4]⟩ - population_variance [2, 4]| ≤
        1 / 10 ^ 9 * |population_variance [2, 4]| := by
  refine ⟨?_, ?_, ?_, ?_⟩
  · norm_num [ingestMany, ingest, dequeAppend, initEstimator]
  · norm_num [calculate_variance]
  · norm_num [population_variance, list_mean]
  · norm_num [calculate_variance, population_variance, list_mean]

/-- C4 evaluation: with window capacity 2 and inputs `[0, 2, 4, 4]`, the
code drives `M2` (`sum_sq_dev`) to `-2 < 0`, violating the invariant. -/
theorem sum_sq_dev_negative :
    ingestMany (initEstimator 2) [0, 2, 4, 4] = .ok ⟨2, 2, 4, -2, [4, 4]⟩ ∧
    (-2 : ℚ) < 0 := by
  refine ⟨?_, by norm_num⟩
  norm_num [ingestMany, ingest, dequeAppend, initEstimator]

/-- C2 evaluation: on a failed ADC read, the loop body raises a `TypeError`
inside the Welford update — after `self.n` has already been incremented
from 0 to 1 — instead of skipping the tick or aborting explicitly; nothing
is enqueued. -/
theorem failed_read_raises_in_update :
    loop_body none 0 (initEstimator 5000) [] =
      .error ("TypeError: unsupported operand types for -: NoneType and float", 1) := rfl

/-- C3 evaluation: the configuration `frequency=1000, duration=-1, window=5,
rotate=1` violates the spec constraint `duration > 0`, yet the startup path
accepts it without any error — no validation code exists — so the run
proceeds to hardware and file interaction. -/
theorem invalid_config_accepted :
    ¬ spec_config_valid 1000 (-1) 5 1 ∧
    recorder_init 1000 5 = .ok (1 / 1000, initEstimator 5000) := by
  constructor
  · intro h
    exact absurd h.2.1 (by norm_num)
  · norm_num [recorder_init, pytrunc, initEstimator]
    decide

/-- C10: any configuration with `variance_window * frequency < 1` — admitted
by the spec, which allows every `variance_window > 0` — yields window
capacity `int(variance_window * frequency) = 0`; the very first ingest then
takes the full-window branch and `popleft` on the empty deque raises
`IndexError` instead of returning a variance. -/
theorem zero_capacity_first_ingest_errors (variance_window : ℚ) (frequency : ℤ) (x : ℚ)
    (hw : 0 < variance_window) (hf : 0 < frequency)
    (hsmall : variance_window * (frequency : ℚ) < 1) :
    recorder_init frequency variance_window = .ok (1 / (frequency : ℚ), initEstimator 0) ∧
    ingest (initEstimator 0) (some x) = .error ("IndexError: pop from an empty deque", 0) := by
  have hq : 0 ≤ variance_window * (frequency : ℚ) :=
    le_of_lt (mul_pos hw (by exact_mod_cast hf))
  have hpy : pytrunc (variance_window * (frequency : ℚ)) = 0 := by
    rw [pytrunc, if_pos hq, Int.floor_eq_zero_iff, Set.mem_Ico]
    exact ⟨hq, hsmall⟩
  constructor
  · rw [recorder_init, if_neg (by omega : ¬ frequency = 0)]
    rw [hpy]
    norm_num
  · rfl

theorem zero_capacity_first_ingest_errors_witness :
    (0 : ℚ) < 1 / 2000 ∧ (0 : ℤ) < 1000 ∧ (1 / 2000 : ℚ) * ((1000 : ℤ) : ℚ) < 1 ∧
    (recorder_init 1000 (1 / 2000) = .ok (1 / ((1000 : ℤ) : ℚ), initEstimator 0) ∧
     ingest (initEstimator 0) (some 7) = .error ("IndexError: pop from an empty deque", 0)) :=
  ⟨by norm_num, by norm_num, by norm_num,
   zero_capacity_first_ingest_errors (1 / 2000) 1000 7 (by norm_num) (by norm_num) (by norm_num)⟩

/-- C6: while the window is filling (`count < capacity`), `ingest` performs
the standard Welford update — `count += 1; delta = x - mean;
mean += delta/count; delta2 = x - mean; sum_sq_dev += delta*delta2` — and
appends `x` to the ring; `calculate_variance` reports `sum_sq_dev / count`,
with `0.0` whenever `count ≤ 1`. -/
theorem filling_regime_welford (s : EstState) (x : ℚ)
    (hn : s.n < s.capacity) (hring : s.ring.length = s.n) :
    (∃ s', ingest s (some x) = .ok s' ∧
      s'.capacity = s.capacity ∧
      s'.n = s.n + 1 ∧
      s'.mean = s.mean + (x - s.mean) / ((s.n + 1 : ℕ) : ℚ) ∧
      s'.M2 = s.M2 + (x - s.mean) * (x - s'.mean) ∧
      s'.ring = s.ring ++ [x]) ∧
    (∀ t : EstState, t.n ≤ 1 → calculate_variance t = 0) ∧
    (∀ t : EstState, 1 < t.n → calculate_variance t = t.M2 / (t.n : ℚ)) := by
  have hda : dequeAppend s.capacity s.ring x = s.ring ++ [x] := by
    rw [dequeAppend]
    have h0 : (s.ring ++ [x]).length - s.capacity = 0 := by
      rw [List.length_append, hring]
      simp only [List.length_singleton]
      omega
    rw [h0, List.drop_zero]
  refine ⟨?_, ?_, ?_⟩
  · have hstep : ingest s (some x) =
        .ok ⟨s.capacity, s.n + 1,
             s.mean + (x - s.mean) / ((s.n + 1 : ℕ) : ℚ),
             s.M2 + (x - s.mean) * (x - (s.mean + (x - s.mean) / ((s.n + 1 : ℕ) : ℚ))),
             dequeAppend s.capacity s.ring x⟩ := by
      unfold ingest
      rw [if_pos hn]
    exact ⟨_, hstep, rfl, rfl, rfl, rfl, hda⟩
  · intro t ht
    rw [calculate_variance, if_neg (by omega)]
  · intro t ht
    rw [calculate_variance, if_pos ht]

theorem filling_regime_welford_witness :
    (0 : ℕ) < 3 ∧
    ((∃ s', ingest ⟨3, 0, 0, 0, []⟩ (some 7) = .ok s' ∧
        s'.capacity = 3 ∧
        s'.n = 0 + 1 ∧
        s'.mean = 0 + (7 - 0) / ((0 + 1 : ℕ) : ℚ) ∧
        s'.M2 = 0 + (7 - 0) * (7 - s'.mean) ∧
        s'.ring = [] ++ [7]) ∧
      (∀ t : EstState, t.n ≤ 1 → calculate_variance t = 0) ∧
      (∀ t : EstState, 1 < t.n → calculate_variance t = t.M2 / (t.n : ℚ))) :=
  ⟨by decide, filling_regime_welford ⟨3, 0, 0, 0, []⟩ 7 (by decide) rfl⟩
